import Mathlib

/-!
# Verification of the chart-pattern matching engine

A shallow embedding, over `ℚ` and `List`, of the core matching engine of the
chart-pattern prototype: the DTW distance engine (`src/engine/dtw_core.py`),
the template store (`src/engine/pattern_library.py`), the matcher's pruning
stage (`src/engine/pattern_matcher.py`), the confidence scorer
(`src/engine/confidence.py`) and the evaluator's eligibility guard
(`src/engine/backtester.py`), together with theorems settling the frozen
claims about them.

Python floats are modelled as exact rationals, numpy arrays as `List ℚ`,
Python `str` as `String`, and the id-keyed insertion-ordered template dict
as an insertion-ordered `List PatternTemplate`.  Where the source computes a
square root (`compute_lb_keogh`), the embedding keeps the executable squared
sum (`compute_lb_keogh_sq`) and theorems speak about `Real.sqrt` of it.
-/

set_option autoImplicit false

namespace ChartPattern

/-! ### List utilities

`listMax`/`listMin` model `np.max`/`np.min` on a non-empty slice; the value
on the empty list is irrelevant junk (numpy raises there) and is never
reached by the envelope code for a non-negative window fraction. -/

/-- Maximum of a list of rationals (`np.max`); junk value 0 on `[]`. -/
def listMax : List ℚ → ℚ
  | [] => 0
  | [a] => a
  | a :: b :: l => max a (listMax (b :: l))

/-- Minimum of a list of rationals (`np.min`); junk value 0 on `[]`. -/
def listMin : List ℚ → ℚ
  | [] => 0
  | [a] => a
  | a :: b :: l => min a (listMin (b :: l))

theorem le_listMax_of_mem {x : ℚ} : ∀ {l : List ℚ}, x ∈ l → x ≤ listMax l
  | [], h => absurd h (List.not_mem_nil x)
  | [a], h => by
      rcases List.mem_singleton.mp h with rfl
      exact le_of_eq rfl
  | a :: b :: l, h => by
      rcases List.mem_cons.mp h with rfl | h2
      · exact le_max_left _ _
      · exact le_trans (le_listMax_of_mem h2) (le_max_right _ _)

theorem listMin_le_of_mem {x : ℚ} : ∀ {l : List ℚ}, x ∈ l → listMin l ≤ x
  | [], h => absurd h (List.not_mem_nil x)
  | [a], h => by
      rcases List.mem_singleton.mp h with rfl
      exact le_of_eq rfl
  | a :: b :: l, h => by
      rcases List.mem_cons.mp h with rfl | h2
      · exact min_le_left _ _
      · exact le_trans (min_le_right _ _) (listMin_le_of_mem h2)

/-! ### String utilities

Executable models of the Python `str` operations used by
`PatternLibrary._create_mirror`: `str.lower`, the `in` containment test and
`str.replace` (all, non-overlapping, left-to-right occurrences). -/

/-- Containment test over character lists: does `pat` occur in `s`?
Models Python `pat in s`. -/
def occursL (pat : List Char) : List Char → Bool
  | [] => pat.isEmpty
  | c :: rest => pat.isPrefixOf (c :: rest) || occursL pat rest

/-- Fuelled worker for `replaceL`.  The fuel is consumed at least once per
emitted character, so fuel `s.length` fully processes `s`. -/
def replaceGo (pat rep : List Char) : ℕ → List Char → List Char
  | 0, s => s
  | _ + 1, [] => []
  | fuel + 1, c :: rest =>
    if pat.isPrefixOf (c :: rest) then
      rep ++ replaceGo pat rep fuel (List.drop pat.length (c :: rest))
    else
      c :: replaceGo pat rep fuel rest

/-- Replace every non-overlapping occurrence of `pat` by `rep`, scanning left
to right; models Python `s.replace(pat, rep)` for non-empty `pat` (the code
only ever replaces non-empty literals). -/
def replaceL (pat rep s : List Char) : List Char :=
  if pat.isEmpty then s else replaceGo pat rep s.length s

/-- Python `s.lower()` (the labels involved are ASCII). -/
def strLower (s : String) : String := ⟨s.data.map Char.toLower⟩

/-- Python `pat in s`. -/
def strContains (s pat : String) : Bool := occursL pat.data s.data

/-- Python `s.replace(pat, rep)`. -/
def strReplace (s pat rep : String) : String := ⟨replaceL pat.data rep.data s.data⟩

theorem replaceGo_of_not_occurs (pat rep : List Char) :
    ∀ (fuel : ℕ) (s : List Char), occursL pat s = false → replaceGo pat rep fuel s = s
  | 0, _, _ => rfl
  | _ + 1, [], _ => rfl
  | fuel + 1, c :: rest, h => by
      unfold occursL at h
      rw [Bool.or_eq_false_iff] at h
      unfold replaceGo
      rw [if_neg (by simp [h.1])]
      rw [replaceGo_of_not_occurs pat rep fuel rest h.2]

/-- If `pat` does not occur in `s` then `replace` leaves `s` unchanged. -/
theorem strReplace_of_not_contains (s pat rep : String)
    (h : strContains s pat = false) : strReplace s pat rep = s := by
  unfold strReplace replaceL
  split
  · rfl
  · rw [replaceGo_of_not_occurs pat.data rep.data s.data.length s.data h]

/-! ### Distance engine (`src/engine/dtw_core.py`)

The aeon distance functions (`dtw_distance`, `ddtw_distance`,
`adtw_distance`) are an external dependency, not code of this repository.

Modelled from the spec: DTW is the classic dynamic program over the squared
pointwise cost, accumulated without a final square root; the Sakoe–Chiba
band admits cell `(i, j)` iff `|i - j| ≤ ⌊w · max n m⌋` with the band width
`w` given as a fraction of sequence length; ADTW is the amercing-penalty
variant, adding a penalty to each non-diagonal step; DDTW is DTW applied to
the first-difference signal (the spec requires length ≥ 2 in derivative
mode, so the derivative of a valid signal is non-empty); empty or too-short
inputs are undefined behaviour, modelled as `⊤ : WithTop ℚ`. -/

/-- Sakoe–Chiba band admissibility of cell `(i, j)` for signals of lengths
`n`, `m` and band fraction `w` (`none` = unconstrained). -/
def bandOk (w : Option ℚ) (n m : ℕ) (i j : ℕ) : Bool :=
  match w with
  | none => true
  | some wf => decide ((((i : ℤ) - (j : ℤ)).natAbs : ℤ) ≤ ⌊wf * ((max n m : ℕ) : ℚ)⌋)

/-- Row 0 of the accumulated-cost matrix: `g 0 j`, with warp penalty `p`
added to each of the `j` horizontal steps. -/
def dtwRow0 (x y : ℕ → ℚ) (p : ℚ) (band : ℕ → ℕ → Bool) : ℕ → WithTop ℚ
  | 0 => if band 0 0 then (((x 0 - y 0) ^ 2 : ℚ) : WithTop ℚ) else ⊤
  | j + 1 =>
    if band 0 (j + 1) then
      dtwRow0 x y p band j + (((x 0 - y (j + 1)) ^ 2 + p : ℚ) : WithTop ℚ)
    else ⊤

/-- Row `i + 1` of the accumulated-cost matrix from row `i` (`prev`):
`g (i+1) j = c + min (g i (j-1)) (min (g i j + p) (g (i+1) (j-1) + p))`. -/
def dtwRowSucc (x y : ℕ → ℚ) (p : ℚ) (band : ℕ → ℕ → Bool) (i : ℕ)
    (prev : ℕ → WithTop ℚ) : ℕ → WithTop ℚ
  | 0 =>
    if band (i + 1) 0 then
      prev 0 + (((x (i + 1) - y 0) ^ 2 + p : ℚ) : WithTop ℚ)
    else ⊤
  | j + 1 =>
    if band (i + 1) (j + 1) then
      min (prev j)
          (min (prev (j + 1) + ((p : ℚ) : WithTop ℚ))
               (dtwRowSucc x y p band i prev j + ((p : ℚ) : WithTop ℚ))) +
        (((x (i + 1) - y (j + 1)) ^ 2 : ℚ) : WithTop ℚ)
    else ⊤

/-- Accumulated-cost matrix `g i j` of (penalised, banded) DTW. -/
def dtwRow (x y : ℕ → ℚ) (p : ℚ) (band : ℕ → ℕ → Bool) : ℕ → ℕ → WithTop ℚ
  | 0 => dtwRow0 x y p band
  | i + 1 => dtwRowSucc x y p band i (dtwRow x y p band i)

/-- Raw accumulated DTW cost between two signals with warp penalty `p`
(0 for plain DTW, 1 for ADTW, aeon's default) and band fraction `w`;
`⊤` on empty input (undefined behaviour per the spec). -/
def dtwCostP (p : ℚ) (xs ys : List ℚ) (w : Option ℚ) : WithTop ℚ :=
  if xs.isEmpty || ys.isEmpty then ⊤
  else
    dtwRow (fun i => xs.getD i 0) (fun j => ys.getD j 0) p
      (bandOk w xs.length ys.length) (xs.length - 1) (ys.length - 1)

/-- First-difference signal.  Modelled from the spec: DDTW applies DTW to
the first-derivative signal, which for a length-`n` input has length
`n - 1`. -/
def deriv (xs : List ℚ) : List ℚ := List.zipWith (fun b a => b - a) xs.tail xs

/-- Construction-time configuration of `DTWCalculator` (the two fields
irrelevant to `compute_distance` are omitted). -/
structure DTWConfig where
  variant : String
  constraint : String
  sakoe_chiba_window : ℚ
  amercing_penalty : ℚ
deriving DecidableEq

/-- Default `DTWCalculator` construction: derivative variant, Sakoe–Chiba
constraint, window fraction 0.15, amercing penalty 0.5. -/
def defaultDTWConfig : DTWConfig :=
  { variant := "derivative", constraint := "sakoe_chiba",
    sakoe_chiba_window := 3 / 20, amercing_penalty := 1 / 2 }

/-- `DTWCalculator.compute_distance`: dispatch on variant/constraint exactly
as the source does (note the derivative/adtw branch passes the amercing
penalty as the *window* of `ddtw_distance`, and the standard/adtw branch
passes it as the window of `adtw_distance`, whose warp penalty stays at the
aeon default 1), then normalise the raw accumulated cost by
`len(query) + len(template)`. -/
def compute_distance (cfg : DTWConfig) (query template : List ℚ) : WithTop ℚ :=
  let raw :=
    if cfg.variant = "derivative" ∧ cfg.constraint = "adtw" then
      dtwCostP 0 (deriv query) (deriv template) (some cfg.amercing_penalty)
    else if cfg.variant = "derivative" ∧ cfg.constraint = "sakoe_chiba" then
      dtwCostP 0 (deriv query) (deriv template) (some cfg.sakoe_chiba_window)
    else if cfg.variant = "derivative" then
      dtwCostP 0 (deriv query) (deriv template) none
    else if cfg.constraint = "adtw" then
      dtwCostP 1 query template (some cfg.amercing_penalty)
    else if cfg.constraint = "sakoe_chiba" then
      dtwCostP 0 query template (some cfg.sakoe_chiba_window)
    else
      dtwCostP 0 query template none
  WithTop.map (fun d => d / ((query.length + template.length : ℕ) : ℚ)) raw

/-- `DTWCalculator.compute_lb_keogh`, up to the final square root: both
arrays truncated to the shorter of query and upper envelope, then the sum of
squared envelope violations.  The source returns `Real.sqrt` of this value;
theorems state that explicitly. -/
def compute_lb_keogh_sq (query upper lower : List ℚ) : ℚ :=
  let m := min query.length upper.length
  ((List.range m).map fun i =>
    let qi := query.getD i 0
    let ui := upper.getD i 0
    let li := lower.getD i 0
    if qi > ui then (qi - ui) ^ 2 else if qi < li then (li - qi) ^ 2 else 0).sum

/-- Sliding window of `template` around index `i` with half-width `ws`,
clipped to the series bounds: indices `max 0 (i - ws)` up to
`min n (i + ws + 1)` exclusive (ℕ subtraction is the `max 0` clip). -/
def winSlice (template : List ℚ) (ws : ℕ) (i : ℕ) : List ℚ :=
  (template.drop (i - ws)).take (min template.length (i + ws + 1) - (i - ws))

/-- `DTWCalculator.compute_envelopes`: per-index max/min over a symmetric
window of half-width `int(len * window_fraction)`.  Faithful for
`window_fraction ≥ 0` (every caller passes a non-negative fraction;
Python's `int` truncation then agrees with `⌊·⌋`). -/
def compute_envelopes (template : List ℚ) (wf : ℚ) : List ℚ × List ℚ :=
  let n := template.length
  let ws := (⌊(n : ℚ) * wf⌋).toNat
  ((List.range n).map fun i => listMax (winSlice template ws i),
   (List.range n).map fun i => listMin (winSlice template ws i))

/-! ### Template store (`src/models/pattern.py`, `src/engine/pattern_library.py`)

`PatternTemplate` is the dataclass of `src/models/pattern.py`; uuid ids are
modelled as naturals drawn from a store counter, the raw OHLCV `DataFrame`
as an opaque token (`raw_data : ℕ` — the store only ever copies it around),
timestamps as naturals.  The Python id→template `dict` preserves insertion
order, modelled as an insertion-ordered list (ids unique by freshness). -/

structure PatternTemplate where
  id : ℕ
  label : String
  raw_data : ℕ
  normalized : List ℚ
  symbol : String
  timeframe : String
  start_time : ℕ
  end_time : ℕ
  bars_count : ℕ
  is_augmented : Bool
  augmentation_type : Option String
  parent_id : Option ℕ
  quality_score : ℚ
  upper_envelope : Option (List ℚ)
  lower_envelope : Option (List ℚ)
deriving DecidableEq

/-- State of `PatternLibrary`: the template mapping and the `index_dirty`
flag, plus the id counter standing in for `uuid4`. -/
structure LibraryState where
  templates : List PatternTemplate
  index_dirty : Bool
  nextId : ℕ
deriving DecidableEq

/-- `PatternLibrary.__init__`: empty mapping, `index_dirty = False`. -/
def initLibrary : LibraryState :=
  { templates := [], index_dirty := false, nextId := 0 }

/-- `PatternLibrary.add_pattern`: append a fresh non-augmented template and
mark the index dirty.  The upstream preprocessing (`normalize_pattern`) and
quality scoring are modelled as the already-computed arguments `norm` and
`quality`; metadata fields are passed through. -/
def add_pattern (s : LibraryState) (label : String) (raw : ℕ) (norm : List ℚ)
    (quality : ℚ) (symbol timeframe : String) (startT endT bars : ℕ) :
    LibraryState :=
  { templates := s.templates ++
      [{ id := s.nextId, label := label, raw_data := raw, normalized := norm,
         symbol := symbol, timeframe := timeframe, start_time := startT,
         end_time := endT, bars_count := bars, is_augmented := false,
         augmentation_type := none, parent_id := none, quality_score := quality,
         upper_envelope := none, lower_envelope := none }],
    index_dirty := true,
    nextId := s.nextId + 1 }

/-- `PatternLibrary._create_mirror`'s label rule: leave the label alone if
`"_inverted"` already occurs (case-insensitively); otherwise swap the
lowercase and capitalised spellings of bullish/bearish when the word occurs
case-insensitively; otherwise append `"_inverted"`. -/
def mirrorLabel (label : String) : String :=
  if strContains (strLower label) "_inverted" then label
  else if strContains (strLower label) "bullish" then
    strReplace (strReplace label "bullish" "bearish") "Bullish" "Bearish"
  else if strContains (strLower label) "bearish" then
    strReplace (strReplace label "bearish" "bullish") "Bearish" "Bullish"
  else label ++ "_inverted"

/-- `PatternLibrary._create_mirror`: negate the normalized signal, relabel,
copy the raw window, metadata and quality score, set the augmentation
fields; envelopes start unset (dataclass defaults). -/
def create_mirror (newId : ℕ) (t : PatternTemplate) : PatternTemplate :=
  { id := newId, label := mirrorLabel t.label, raw_data := t.raw_data,
    normalized := t.normalized.map (fun x => -x),
    symbol := t.symbol, timeframe := t.timeframe,
    start_time := t.start_time, end_time := t.end_time,
    bars_count := t.bars_count, is_augmented := true,
    augmentation_type := some "mirror", parent_id := some t.id,
    quality_score := t.quality_score,
    upper_envelope := none, lower_envelope := none }

/-- `PatternLibrary.augment_library`: for every template whose
`is_augmented` flag is false at call time, insert a mirrored sibling (when
`mirror_patterns` is set); always mark the index dirty. -/
def augment_library (s : LibraryState) (mirror_patterns : Bool) : LibraryState :=
  let originals := s.templates.filter (fun t => !t.is_augmented)
  let mirrors :=
    if mirror_patterns then
      originals.enum.map (fun p => create_mirror (s.nextId + p.1) p.2)
    else []
  { templates := s.templates ++ mirrors,
    index_dirty := true,
    nextId := s.nextId + mirrors.length }

/-- `PatternLibrary.build_index`: recompute both envelopes for every current
template from its normalized signal, then clear `index_dirty`. -/
def build_index (s : LibraryState) (wf : ℚ) : LibraryState :=
  { s with
    templates := s.templates.map (fun t =>
      { t with
        upper_envelope := some (compute_envelopes t.normalized wf).1,
        lower_envelope := some (compute_envelopes t.normalized wf).2 }),
    index_dirty := false }

/-- `PatternLibrary.save`: persists to disk, library state untouched. -/
def savePattLib (s : LibraryState) : LibraryState := s

/-- `PatternLibrary.load`: when the persisted file exists (`some tpls`),
replace the mapping and set `index_dirty = True`; when it does not exist,
clear the mapping and leave `index_dirty` untouched. -/
def loadPattLib (s : LibraryState) (file : Option (List PatternTemplate)) :
    LibraryState :=
  match file with
  | some tpls => { s with templates := tpls, index_dirty := true }
  | none => { s with templates := [] }

/-- `delete_pattern` (from `src/components/patterns/view_library.py`):
`del library.templates[t.id]` followed by `library.save()`; neither step
touches `index_dirty`. -/
def delete_pattern (s : LibraryState) (tid : ℕ) : LibraryState :=
  savePattLib { s with templates := s.templates.filter (fun t => t.id ≠ tid) }

/-- The template-store operations the claims range over. -/
inductive LibOp where
  | add (label : String) (raw : ℕ) (norm : List ℚ) (quality : ℚ)
      (symbol timeframe : String) (startT endT bars : ℕ)
  | augment (mirror_patterns : Bool)
  | delete (tid : ℕ)
  | buildIndex (wf : ℚ)
  | save
  | load (file : Option (List PatternTemplate))

/-- Small-step semantics of the store: apply one operation. -/
def applyOp (op : LibOp) (s : LibraryState) : LibraryState :=
  match op with
  | .add label raw norm quality symbol timeframe startT endT bars =>
      add_pattern s label raw norm quality symbol timeframe startT endT bars
  | .augment m => augment_library s m
  | .delete tid => delete_pattern s tid
  | .buildIndex wf => build_index s wf
  | .save => savePattLib s
  | .load file => loadPattLib s file

/-! ### Matcher prune stage (`src/engine/pattern_matcher.py`)

`PatternMatcher._filter_candidates_lb_keogh` sorts templates by their
`compute_lb_keogh` value.  The embedding sorts by the squared sum
`compute_lb_keogh_sq` instead; `Real.sqrt` is strictly monotone on
non-negative rationals (`sqrt_le_sqrt_iff_rat` below), so the sorted order,
and hence the selected prefix, is the same list. -/

/-- LB_Keogh sort key of one template: the (squared) bound, or 0 when either
envelope is missing ("if no envelope, include it"). -/
def lbBoundKey (query : List ℚ) (t : PatternTemplate) : ℚ :=
  match t.upper_envelope, t.lower_envelope with
  | some u, some l => compute_lb_keogh_sq query u l
  | _, _ => 0

/-- `PatternMatcher._filter_candidates_lb_keogh`: when LB_Keogh filtering is
off or the store is empty, all templates are candidates; otherwise sort the
templates ascending by bound (Python's stable `list.sort`) and keep the
first `max 1 (int(N * percentile))` of them. -/
def filter_candidates_lb_keogh (use_lb_keogh : Bool)
    (templates : List PatternTemplate) (query : List ℚ) (percentile : ℚ) :
    List PatternTemplate :=
  if !use_lb_keogh || templates.isEmpty then templates
  else
    let sorted := (templates.map (fun t => (t, lbBoundKey query t))).mergeSort
      (fun a b => decide (a.2 ≤ b.2))
    let threshold_idx := max 1 (⌊(templates.length : ℚ) * percentile⌋).toNat
    (sorted.take threshold_idx).map (fun x => x.1)

/-! ### Confidence scorer (`src/engine/confidence.py`)

Python iterates `set(...)` in an unspecified order; the embedding fixes the
canonical first-occurrence order (`dedup`) for the distinct-label list.  The
spec itself flags the missing tie-break rule; the claim proved here (the
score lies in `[0,1]`) holds for every order, and the proof below only uses
that the list is sorted by descending weight. -/

/-- `ConfidenceScorer._get_label_weight`: total vote weight
`Σ 1/(d + 1e-6)` of a label over the k-nearest list. -/
def labelWeight (label : String) (k_nearest : List (PatternTemplate × ℚ)) : ℚ :=
  ((k_nearest.filter (fun p => decide (p.1.label = label))).map
    (fun p => 1 / (p.2 + 1 / 1000000))).sum

/-- `ConfidenceScorer._get_nearest_distance`: distance of the first
same-label neighbour; `none` models `float('inf')`. -/
def nearestDistance (label : String) (k_nearest : List (PatternTemplate × ℚ)) :
    Option ℚ :=
  (k_nearest.find? (fun p => decide (p.1.label = label))).map (fun p => p.2)

/-- Signal 1 of `compute_confidence`: `min(closeness / 10, 1)` where
`closeness = 1/(d + 1e-6)` for the first same-label neighbour's distance
`d`; with no same-label neighbour, `1/(inf + 1e-6) = 0`. -/
def closenessScore (label : String)
    (k_nearest : List (PatternTemplate × ℚ)) : ℚ :=
  let closeness : ℚ :=
    match nearestDistance label k_nearest with
    | some d => 1 / (d + 1 / 1000000)
    | none => 0
  min (closeness / 10) 1

/-- Signal 2 of `compute_confidence`: the fraction of the k-nearest list
whose label matches. -/
def consensusScore (label : String)
    (k_nearest : List (PatternTemplate × ℚ)) : ℚ :=
  if k_nearest.isEmpty then 0
  else ((k_nearest.filter (fun p => decide (p.1.label = label))).length : ℚ) /
    (k_nearest.length : ℚ)

/-- Signal 3 of `compute_confidence`: `(W1 - W2)/(W1 + 1e-6)` over the two
top total vote weights among distinct labels (sorted descending by weight,
as the source's `sorted(..., reverse=True)`), or 1 with a single distinct
label.  The source iterates a Python `set` whose order is unspecified; the
embedding fixes the first-occurrence order, and the bound proved below uses
only sortedness, so it is independent of that choice. -/
def separationScore (k_nearest : List (PatternTemplate × ℚ)) : ℚ :=
  if 1 < ((k_nearest.map (fun p => p.1.label)).dedup).length then
    (labelWeight ((((k_nearest.map (fun p => p.1.label)).dedup).mergeSort
        (fun a b => decide
          (labelWeight b k_nearest ≤ labelWeight a k_nearest))).getD 0 "")
        k_nearest -
      labelWeight ((((k_nearest.map (fun p => p.1.label)).dedup).mergeSort
        (fun a b => decide
          (labelWeight b k_nearest ≤ labelWeight a k_nearest))).getD 1 "")
        k_nearest) /
      (labelWeight ((((k_nearest.map (fun p => p.1.label)).dedup).mergeSort
        (fun a b => decide
          (labelWeight b k_nearest ≤ labelWeight a k_nearest))).getD 0 "")
        k_nearest + 1 / 1000000)
  else 1

/-- Signal 4 of `compute_confidence`: mean quality score of the same-label
neighbours (`np.mean`), or 0 when there are none. -/
def avgQualityScore (label : String)
    (k_nearest : List (PatternTemplate × ℚ)) : ℚ :=
  if (k_nearest.filter (fun p => decide (p.1.label = label))).isEmpty then 0
  else ((k_nearest.filter
      (fun p => decide (p.1.label = label))).map
        (fun p => p.1.quality_score)).sum /
    ((k_nearest.filter (fun p => decide (p.1.label = label))).length : ℚ)

/-- `ConfidenceScorer.compute_confidence`: the weighted sum of closeness,
consensus, separation and quality.  `vote_weight` and `query` are accepted
and ignored, as in the source. -/
def compute_confidence (closeness_weight consensus_weight separation_weight
    quality_weight : ℚ) (label : String)
    (k_nearest : List (PatternTemplate × ℚ)) (vote_weight : ℚ)
    (query : List ℚ) : ℚ :=
  closeness_weight * closenessScore label k_nearest +
    consensus_weight * consensusScore label k_nearest +
    separation_weight * separationScore k_nearest +
    quality_weight * avgQualityScore label k_nearest

/-! ### Evaluator eligibility guard (`src/engine/backtester.py`)

`Backtester.cross_validate` returns early with an error dictionary when
fewer than 2 eligible templates exist, before any library mutation.  The
metric computation of the non-degenerate branch is outside every claim and
is abstracted to the chosen strategy name and template count; that branch's
net state effect (the library restored, `index_dirty` left `True`) is kept. -/

inductive CVResult where
  | error (message : String) (template_count : ℕ)
  | metrics (cv_strategy : String) (template_count : ℕ)
deriving DecidableEq

/-- `Backtester.cross_validate`: filter eligible templates, guard on fewer
than 2, otherwise run the folds (abstracted) and restore the store with
`index_dirty = True`. -/
def cross_validate (s : LibraryState) (min_confidence : ℚ) (cv_folds : ℕ)
    (exclude_augmented : Bool) : CVResult × LibraryState :=
  let templates := s.templates.filter
    (fun t => !(exclude_augmented && t.is_augmented))
  if templates.length < 2 then
    (CVResult.error "Need at least 2 templates for cross-validation"
      templates.length, s)
  else
    (CVResult.metrics
      (if templates.length ≤ 10 then "Leave-One-Out"
       else toString cv_folds ++ "-Fold")
      templates.length,
     { s with index_dirty := true })

/-! ## Claims about the template store's dirty flag (C2, C5) -/

/-- C5 counterexample: `load` on a store whose persisted file does not exist
leaves `index_dirty` exactly as it was — here `false` — refuting "every call
to `load()` leaves `index_dirty = true` on return". -/
theorem c5_counterexample :
    (loadPattLib initLibrary none).index_dirty = false := rfl

/-- C5 as amended: `load` sets `index_dirty = true` whenever the persisted
file exists; when the file is absent it clears the template mapping and
leaves `index_dirty` unchanged. -/
theorem c5_load_dirty (s : LibraryState) (tpls : List PatternTemplate) :
    (loadPattLib s (some tpls)).index_dirty = true ∧
    (loadPattLib s none).templates = [] ∧
    (loadPattLib s none).index_dirty = s.index_dirty :=
  ⟨rfl, rfl, rfl⟩

/-- C2 counterexample: add a pattern, rebuild the index (clearing the dirty
flag), then delete the pattern by id; `index_dirty` is still `false`
immediately after the delete, refuting "every delete ... leaves
`index_dirty = true` immediately afterwards". -/
theorem c2_counterexample :
    (applyOp (.delete 0)
      (applyOp (.buildIndex (3 / 20))
        (applyOp (.add "A" 0 [1, 2] 1 "SYM" "1h" 0 1 2)
          initLibrary))).index_dirty = false := rfl

/-- C2 as amended: every insert (`add_pattern`) and every augmentation
(`augment_library`) sets `index_dirty = true`; the delete operation
(`delete_pattern`) leaves `index_dirty` unchanged (it does not mark the
index dirty); and among the store operations only a full envelope rebuild
(`build_index`) takes the flag from `true` to `false`. -/
theorem c2_dirty_flag_ops (s : LibraryState) :
    (∀ label raw norm quality symbol timeframe startT endT bars,
      (applyOp (.add label raw norm quality symbol timeframe startT endT bars)
        s).index_dirty = true) ∧
    (∀ m, (applyOp (.augment m) s).index_dirty = true) ∧
    (∀ tid, (applyOp (.delete tid) s).index_dirty = s.index_dirty) ∧
    (∀ wf, (applyOp (.buildIndex wf) s).index_dirty = false) ∧
    (∀ op : LibOp, s.index_dirty = true →
      (applyOp op s).index_dirty = false → ∃ wf, op = .buildIndex wf) := by
  refine ⟨fun _ _ _ _ _ _ _ _ _ => rfl, fun _ => rfl, fun _ => rfl,
    fun _ => rfl, ?_⟩
  intro op hd hfalse
  cases op with
  | add _ _ _ _ _ _ _ _ _ => exact absurd hfalse (by simp [applyOp, add_pattern])
  | augment m => exact absurd hfalse (by simp [applyOp, augment_library])
  | delete tid =>
      exact absurd hfalse (by
        simp only [applyOp, delete_pattern, savePattLib] at *
        simp [hd])
  | buildIndex wf => exact ⟨wf, rfl⟩
  | save => exact absurd hfalse (by simp [applyOp, savePattLib, hd])
  | load file =>
      cases file with
      | some tpls => exact absurd hfalse (by simp [applyOp, loadPattLib])
      | none => exact absurd hfalse (by simp [applyOp, loadPattLib, hd])

/-- Witness for `c2_dirty_flag_ops` at a concrete dirty store and the
rebuild operation. -/
theorem c2_dirty_flag_ops_witness :
    ∃ wf : ℚ, (LibOp.buildIndex (3 / 20) : LibOp) = .buildIndex wf :=
  (c2_dirty_flag_ops
    { templates := [], index_dirty := true, nextId := 0 }).2.2.2.2
    (.buildIndex (3 / 20)) rfl rfl

/-! ## Claim about the evaluator's eligibility guard (C8) -/

/-- C8: with fewer than 2 eligible templates (non-augmented ones when
`exclude_augmented` is set), `cross_validate` returns the structured error
result carrying the eligible-template count, and the store is returned
unchanged; being a total function of the state, no exception is involved. -/
theorem c8_cv_guard (s : LibraryState) (min_confidence : ℚ) (cv_folds : ℕ)
    (exclude_augmented : Bool)
    (h : (s.templates.filter
      (fun t => !(exclude_augmented && t.is_augmented))).length < 2) :
    cross_validate s min_confidence cv_folds exclude_augmented =
      (CVResult.error "Need at least 2 templates for cross-validation"
        (s.templates.filter
          (fun t => !(exclude_augmented && t.is_augmented))).length,
       s) := by
  unfold cross_validate
  rw [if_pos h]

/-- Witness for `c8_cv_guard`: an empty store. -/
theorem c8_cv_guard_witness :
    cross_validate initLibrary (7 / 10) 5 true =
      (CVResult.error "Need at least 2 templates for cross-validation" 0,
       initLibrary) :=
  c8_cv_guard initLibrary (7 / 10) 5 true (by decide)

/-! ## Claim about repeated augmentation (C10) -/

/-- C10: one `augment_library(mirror_patterns=true)` call adds exactly one
mirror per currently non-augmented template; the set of non-augmented
templates is untouched (mirrors are born augmented), so a second call adds
the same number again, and on a store of `n` non-augmented and no augmented
templates two successive calls leave `3 * n` templates. -/
theorem c10_augment_counts (s : LibraryState) :
    (augment_library s true).templates.length =
      s.templates.length +
        (s.templates.filter (fun t => !t.is_augmented)).length ∧
    (augment_library s true).templates.filter (fun t => !t.is_augmented) =
      s.templates.filter (fun t => !t.is_augmented) ∧
    ((∀ t ∈ s.templates, t.is_augmented = false) →
      (augment_library (augment_library s true) true).templates.length =
        3 * s.templates.length) := by
  have hmlen : ∀ (s' : LibraryState),
      (augment_library s' true).templates.length =
        s'.templates.length +
          (s'.templates.filter (fun t => !t.is_augmented)).length := by
    intro s'
    simp [augment_library]
  have hfilter : ∀ (s' : LibraryState),
      (augment_library s' true).templates.filter (fun t => !t.is_augmented) =
        s'.templates.filter (fun t => !t.is_augmented) := by
    intro s'
    simp only [augment_library, List.filter_append]
    have : ((s'.templates.filter (fun t => !t.is_augmented)).enum.map
        (fun p => create_mirror (s'.nextId + p.1) p.2)).filter
          (fun t => !t.is_augmented) = [] := by
      rw [List.filter_eq_nil_iff]
      intro a ha
      rcases List.mem_map.mp ha with ⟨p, _, rfl⟩
      simp [create_mirror]
    simp [this]
  refine ⟨hmlen s, hfilter s, ?_⟩
  intro hall
  have hself : s.templates.filter (fun t => !t.is_augmented) = s.templates := by
    rw [List.filter_eq_self]
    intro a ha
    simp [hall a ha]
  rw [hmlen, hfilter, hmlen, hself]
  ring

/-- Witness for `c10_augment_counts`: a one-template store doubles to 2 and
then to 3 templates across two augmentation calls. -/
theorem c10_augment_counts_witness :
    (augment_library (augment_library
      (add_pattern initLibrary "bullish_flag" 0 [1, 2] 1 "SYM" "1h" 0 1 2)
      true) true).templates.length =
      3 * (add_pattern initLibrary "bullish_flag" 0 [1, 2] 1 "SYM" "1h"
        0 1 2).templates.length :=
  (c10_augment_counts
    (add_pattern initLibrary "bullish_flag" 0 [1, 2] 1 "SYM" "1h" 0 1 2)).2.2
    (by decide)

/-! ## Claim about the mirrored sibling (C3) -/

/-- Concrete template with an all-caps label, used to refute C3's
case-insensitive-swap reading of the relabelling rule. -/
def tBULL : PatternTemplate :=
  { id := 0, label := "BULLISH", raw_data := 0, normalized := [1, -2],
    symbol := "SYM", timeframe := "1h", start_time := 0, end_time := 1,
    bars_count := 2, is_augmented := false, augmentation_type := none,
    parent_id := none, quality_score := 1, upper_envelope := none,
    lower_envelope := none }

/-- C3 counterexample: the label `"BULLISH"` contains bullish
case-insensitively, yet the mirror's label is `"BULLISH"` unchanged — no
occurrence of bearish in any casing — because the replacement step only
rewrites the exact spellings `"bullish"`/`"Bullish"`.  A case-insensitive
substring swap would have produced a label containing bearish. -/
theorem c3_counterexample :
    strContains (strLower tBULL.label) "bullish" = true ∧
    (create_mirror 1 tBULL).label = "BULLISH" ∧
    strContains (strLower (create_mirror 1 tBULL).label) "bearish" = false := by
  refine ⟨by decide, by decide, by decide⟩

/-- C3 as amended: the mirrored sibling negates the parent's normalized
signal pointwise and copies its raw window and quality score, with the
augmentation fields set; the relabelling checks are case-insensitive but the
replacements are exact-case: if `"_inverted"` already occurs
(case-insensitively) the label is left unchanged (even when bullish/bearish
occurs); otherwise, when bullish occurs case-insensitively, only the
spellings `"bullish"` and `"Bullish"` are swapped to their bearish
counterparts (symmetrically for bearish); when neither word occurs,
`"_inverted"` is appended; consequently a label carrying the word in any
other casing (e.g. all-caps) is returned entirely unchanged. -/
theorem c3_mirror_spec (newId : ℕ) (t : PatternTemplate) :
    (create_mirror newId t).normalized = t.normalized.map (fun x => -x) ∧
    (∀ j, j < t.normalized.length →
      (create_mirror newId t).normalized.getD j 0 =
        -(t.normalized.getD j 0)) ∧
    (create_mirror newId t).raw_data = t.raw_data ∧
    (create_mirror newId t).quality_score = t.quality_score ∧
    (create_mirror newId t).is_augmented = true ∧
    (create_mirror newId t).augmentation_type = some "mirror" ∧
    (create_mirror newId t).parent_id = some t.id ∧
    (strContains (strLower t.label) "_inverted" = true →
      (create_mirror newId t).label = t.label) ∧
    (strContains (strLower t.label) "_inverted" = false →
      strContains (strLower t.label) "bullish" = true →
      (create_mirror newId t).label =
        strReplace (strReplace t.label "bullish" "bearish")
          "Bullish" "Bearish") ∧
    (strContains (strLower t.label) "_inverted" = false →
      strContains (strLower t.label) "bullish" = false →
      strContains (strLower t.label) "bearish" = true →
      (create_mirror newId t).label =
        strReplace (strReplace t.label "bearish" "bullish")
          "Bearish" "Bullish") ∧
    (strContains (strLower t.label) "_inverted" = false →
      strContains (strLower t.label) "bullish" = false →
      strContains (strLower t.label) "bearish" = false →
      (create_mirror newId t).label = t.label ++ "_inverted") ∧
    (strContains (strLower t.label) "_inverted" = false →
      strContains (strLower t.label) "bullish" = true →
      strContains t.label "bullish" = false →
      strContains t.label "Bullish" = false →
      (create_mirror newId t).label = t.label) := by
  refine ⟨rfl, ?_, rfl, rfl, rfl, rfl, rfl, ?_, ?_, ?_, ?_, ?_⟩
  · intro j hj
    simp [create_mirror, List.getD_eq_getElem?_getD, List.getElem?_map,
      List.getElem?_eq_getElem hj]
  · intro h1
    simp [create_mirror, mirrorLabel, h1]
  · intro h1 h2
    simp [create_mirror, mirrorLabel, h1, h2]
  · intro h1 h2 h3
    simp [create_mirror, mirrorLabel, h1, h2, h3]
  · intro h1 h2 h3
    simp [create_mirror, mirrorLabel, h1, h2, h3]
  · intro h1 h2 h3 h4
    have : (create_mirror newId t).label =
        strReplace (strReplace t.label "bullish" "bearish")
          "Bullish" "Bearish" := by
      simp [create_mirror, mirrorLabel, h1, h2]
    rw [this, strReplace_of_not_contains _ _ _ h3,
      strReplace_of_not_contains _ _ _ h4]

/-- Concrete lowercase-labelled template for the `c3_mirror_spec` witness. -/
def tBullFlag : PatternTemplate :=
  { id := 3, label := "bullish_flag", raw_data := 5, normalized := [2, -1],
    symbol := "SYM", timeframe := "1h", start_time := 0, end_time := 1,
    bars_count := 2, is_augmented := false, augmentation_type := none,
    parent_id := none, quality_score := 1, upper_envelope := none,
    lower_envelope := none }

/-- Witness for `c3_mirror_spec`: a lowercase `"bullish_flag"` label takes
the swap branch, and the normalized signal is negated pointwise. -/
theorem c3_mirror_spec_witness :
    (create_mirror 7 tBullFlag).normalized.getD 0 0 =
      -(tBullFlag.normalized.getD 0 0) ∧
    (create_mirror 7 tBullFlag).label =
      strReplace (strReplace tBullFlag.label "bullish" "bearish")
        "Bullish" "Bearish" := by
  refine ⟨(c3_mirror_spec 7 tBullFlag).2.1 0 (by decide), ?_⟩
  exact (c3_mirror_spec 7 tBullFlag).2.2.2.2.2.2.2.2.1 (by decide) (by decide)

/-! ## Claim: a template never prunes itself (C9) -/

/-- Each envelope window contains its own index, so the series value at `i`
is a member of the window slice. -/
theorem getD_mem_winSlice (t : List ℚ) (ws i : ℕ) (hi : i < t.length) :
    t.getD i 0 ∈ winSlice t ws i := by
  have hiE : i < min t.length (i + ws + 1) := lt_min hi (by omega)
  have h1 : (winSlice t ws i)[i - (i - ws)]? = t[i]? := by
    unfold winSlice
    rw [List.getElem?_take, if_pos (by omega), List.getElem?_drop]
    congr 1
    omega
  rw [List.getElem?_eq_getElem hi] at h1
  rcases List.getElem?_eq_some_iff.mp h1 with ⟨hlt, heq⟩
  have := List.getElem_mem hlt
  rw [heq] at this
  rwa [List.getD_eq_getElem?_getD, List.getElem?_eq_getElem hi]

/-- Entry `i` of the upper envelope is the window maximum. -/
theorem envelopes_fst_getD (t : List ℚ) (wf : ℚ) (i : ℕ) (hi : i < t.length) :
    (compute_envelopes t wf).1.getD i 0 =
      listMax (winSlice t ((⌊(t.length : ℚ) * wf⌋).toNat) i) := by
  unfold compute_envelopes
  simp [List.getD_eq_getElem?_getD, List.getElem?_range hi]

/-- Entry `i` of the lower envelope is the window minimum. -/
theorem envelopes_snd_getD (t : List ℚ) (wf : ℚ) (i : ℕ) (hi : i < t.length) :
    (compute_envelopes t wf).2.getD i 0 =
      listMin (winSlice t ((⌊(t.length : ℚ) * wf⌋).toNat) i) := by
  unfold compute_envelopes
  simp [List.getD_eq_getElem?_getD, List.getElem?_range hi]

/-- C9: the envelopes of a signal bracket the signal itself
(`lower[i] ≤ t[i] ≤ upper[i]`), so the LB_Keogh bound of a template against
its own envelopes is zero — a template never prunes itself.  Stated both for
the squared sum the embedding computes and for the square root the source
returns. -/
theorem c9_self_lb_zero (t : List ℚ) (wf : ℚ) (ht : t ≠ []) (hwf : 0 ≤ wf) :
    compute_lb_keogh_sq t (compute_envelopes t wf).1
      (compute_envelopes t wf).2 = 0 ∧
    Real.sqrt ((compute_lb_keogh_sq t (compute_envelopes t wf).1
      (compute_envelopes t wf).2 : ℚ) : ℝ) = 0 := by
  have hlen1 : (compute_envelopes t wf).1.length = t.length := by
    simp [compute_envelopes]
  have hmain : compute_lb_keogh_sq t (compute_envelopes t wf).1
      (compute_envelopes t wf).2 = 0 := by
    unfold compute_lb_keogh_sq
    rw [hlen1, min_self]
    apply List.sum_eq_zero
    intro x hx
    rcases List.mem_map.mp hx with ⟨i, hir, rfl⟩
    have hi := List.mem_range.mp hir
    have hub : t.getD i 0 ≤ (compute_envelopes t wf).1.getD i 0 := by
      rw [envelopes_fst_getD t wf i hi]
      exact le_listMax_of_mem (getD_mem_winSlice t _ i hi)
    have hlb : (compute_envelopes t wf).2.getD i 0 ≤ t.getD i 0 := by
      rw [envelopes_snd_getD t wf i hi]
      exact listMin_le_of_mem (getD_mem_winSlice t _ i hi)
    simp only []
    rw [if_neg (not_lt.mpr hub), if_neg (not_lt.mpr hlb)]
  refine ⟨hmain, ?_⟩
  rw [hmain]
  simp

/-- Witness for `c9_self_lb_zero` on a concrete four-point signal with
window fraction 1/2. -/
theorem c9_self_lb_zero_witness :
    compute_lb_keogh_sq [(1 : ℚ), 5, 2, 8]
      (compute_envelopes [(1 : ℚ), 5, 2, 8] (1 / 2)).1
      (compute_envelopes [(1 : ℚ), 5, 2, 8] (1 / 2)).2 = 0 :=
  (c9_self_lb_zero [(1 : ℚ), 5, 2, 8] (1 / 2) (by decide) (by norm_num)).1

/-! ## Claim: self-distance is zero (C4) -/

/-- Casting a non-negative rational into `WithTop ℚ` stays non-negative. -/
theorem coe_nonneg_q {q : ℚ} (h : 0 ≤ q) :
    (0 : WithTop ℚ) ≤ (q : WithTop ℚ) := by exact_mod_cast h

theorem dtwRow0_nonneg (x y : ℕ → ℚ) (p : ℚ) (band : ℕ → ℕ → Bool)
    (hp : 0 ≤ p) : ∀ j, 0 ≤ dtwRow0 x y p band j
  | 0 => by
      unfold dtwRow0
      split
      · exact coe_nonneg_q (sq_nonneg _)
      · exact le_top
  | j + 1 => by
      unfold dtwRow0
      split
      · exact add_nonneg (dtwRow0_nonneg x y p band hp j)
          (coe_nonneg_q (add_nonneg (sq_nonneg _) hp))
      · exact le_top

theorem dtwRowSucc_nonneg (x y : ℕ → ℚ) (p : ℚ) (band : ℕ → ℕ → Bool)
    (i : ℕ) (prev : ℕ → WithTop ℚ) (hp : 0 ≤ p)
    (hprev : ∀ j, 0 ≤ prev j) : ∀ j, 0 ≤ dtwRowSucc x y p band i prev j
  | 0 => by
      unfold dtwRowSucc
      split
      · exact add_nonneg (hprev 0)
          (coe_nonneg_q (add_nonneg (sq_nonneg _) hp))
      · exact le_top
  | j + 1 => by
      unfold dtwRowSucc
      split
      · refine add_nonneg (le_min (hprev j) (le_min ?_ ?_))
          (coe_nonneg_q (sq_nonneg _))
        · exact add_nonneg (hprev (j + 1)) (coe_nonneg_q hp)
        · exact add_nonneg (dtwRowSucc_nonneg x y p band i prev hp hprev j)
            (coe_nonneg_q hp)
      · exact le_top

/-- Every cell of the accumulated-cost matrix is non-negative when the warp
penalty is. -/
theorem dtwRow_nonneg (x y : ℕ → ℚ) (p : ℚ) (band : ℕ → ℕ → Bool)
    (hp : 0 ≤ p) : ∀ i j, 0 ≤ dtwRow x y p band i j
  | 0 => dtwRow0_nonneg x y p band hp
  | i + 1 => dtwRowSucc_nonneg x y p band i (dtwRow x y p band i) hp
      (dtwRow_nonneg x y p band hp i)

/-- Along the diagonal of the self-comparison matrix the accumulated cost
never exceeds zero: every pointwise cost on the diagonal vanishes and the
diagonal is reachable cell by cell. -/
theorem dtwRow_diag_nonpos (x : ℕ → ℚ) (p : ℚ) (band : ℕ → ℕ → Bool)
    (hband : ∀ i, band i i = true) : ∀ i, dtwRow x x p band i i ≤ 0
  | 0 => by
      show dtwRow0 x x p band 0 ≤ 0
      unfold dtwRow0
      rw [if_pos (hband 0), sub_self, zero_pow (by norm_num)]
      exact le_of_eq WithTop.coe_zero
  | i + 1 => by
      show dtwRowSucc x x p band i (dtwRow x x p band i) (i + 1) ≤ 0
      unfold dtwRowSucc
      rw [if_pos (hband (i + 1)), sub_self, zero_pow (by norm_num),
        WithTop.coe_zero, add_zero]
      exact le_trans (min_le_left _ _) (dtwRow_diag_nonpos x p band hband i)

/-- The Sakoe–Chiba band always admits the diagonal when the band fraction
is non-negative (or absent). -/
theorem bandOk_diag (w : Option ℚ) (hw : ∀ wf, w = some wf → 0 ≤ wf)
    (n m : ℕ) : ∀ i, bandOk w n m i i = true := by
  intro i
  cases w with
  | none => rfl
  | some wf =>
      have h0 : 0 ≤ wf := hw wf rfl
      simp only [bandOk, sub_self, Int.natAbs_zero, Nat.cast_zero,
        decide_eq_true_eq]
      exact Int.le_floor.mpr (by positivity)

/-- Raw banded DTW cost of a non-empty signal against itself is zero, for
any non-negative warp penalty and band fraction. -/
theorem dtwCostP_self (p : ℚ) (hp : 0 ≤ p) (zs : List ℚ) (hz : zs ≠ [])
    (w : Option ℚ) (hw : ∀ wf, w = some wf → 0 ≤ wf) :
    dtwCostP p zs zs w = 0 := by
  unfold dtwCostP
  rw [if_neg (by simp [List.isEmpty_iff, hz])]
  exact le_antisymm
    (dtwRow_diag_nonpos _ p _ (bandOk_diag w hw zs.length zs.length) _)
    (dtwRow_nonneg _ _ p _ hp _ _)

/-- Length of the first-difference signal. -/
theorem deriv_length (xs : List ℚ) : (deriv xs).length = xs.length - 1 := by
  unfold deriv
  rw [List.length_zipWith, List.length_tail]
  omega

/-- Path-length normalisation of a zero raw cost is zero. -/
theorem mapDiv_zero (c : ℚ) :
    WithTop.map (fun d : ℚ => d / c) (0 : WithTop ℚ) = 0 := by
  rw [← WithTop.coe_zero, WithTop.map_coe, zero_div, WithTop.coe_zero]

/-- C4 counterexample: with the default configuration (derivative variant)
a non-empty one-point signal has an empty derivative, so the underlying
distance call is undefined behaviour (the spec calls too-short derivative
inputs UB; modelled as `⊤`) — not the claimed 0. -/
theorem c4_counterexample :
    compute_distance defaultDTWConfig [(0 : ℚ)] [(0 : ℚ)] = ⊤ ∧
    (⊤ : WithTop ℚ) ≠ 0 := by
  exact ⟨rfl, by decide⟩

/-- C4 as amended: for every configured variant/constraint combination with
non-negative window fractions, `compute_distance(a, a) = 0` for every signal
`a` that is long enough for the selected variant — any non-empty `a` for the
standard variants, length ≥ 2 for the derivative variants (a shorter
derivative-mode input is undefined behaviour, as the counterexample
shows). -/
theorem c4_self_distance_zero (cfg : DTWConfig)
    (hscw : 0 ≤ cfg.sakoe_chiba_window) (hap : 0 ≤ cfg.amercing_penalty)
    (a : List ℚ)
    (hlen : if cfg.variant = "derivative" then 2 ≤ a.length
            else 1 ≤ a.length) :
    compute_distance cfg a a = 0 := by
  have hderiv : cfg.variant = "derivative" → deriv a ≠ [] := by
    intro hv hnil
    have hd := deriv_length a
    rw [hnil] at hd
    rw [hv, if_pos rfl] at hlen
    simp only [List.length_nil] at hd
    omega
  have hstd : ¬(cfg.variant = "derivative") → a ≠ [] := by
    intro hv
    rw [if_neg hv] at hlen
    intro hnil
    rw [hnil] at hlen
    simp at hlen
  unfold compute_distance
  split_ifs with h1 h2 h3 h4 h5
  · rw [dtwCostP_self 0 le_rfl _ (hderiv h1.1) _
      (fun wf hwf => by cases hwf; exact hap), mapDiv_zero]
  · rw [dtwCostP_self 0 le_rfl _ (hderiv h2.1) _
      (fun wf hwf => by cases hwf; exact hscw), mapDiv_zero]
  · rw [dtwCostP_self 0 le_rfl _ (hderiv h3) _ (fun wf hwf => by cases hwf),
      mapDiv_zero]
  · rw [dtwCostP_self 1 zero_le_one _ (hstd h3) _
      (fun wf hwf => by cases hwf; exact hap), mapDiv_zero]
  · rw [dtwCostP_self 0 le_rfl _ (hstd h3) _
      (fun wf hwf => by cases hwf; exact hscw), mapDiv_zero]
  · rw [dtwCostP_self 0 le_rfl _ (hstd h3) _ (fun wf hwf => by cases hwf),
      mapDiv_zero]

/-- Witness for `c4_self_distance_zero` at the default configuration and a
three-point signal. -/
theorem c4_self_distance_zero_witness :
    compute_distance defaultDTWConfig [(0 : ℚ), 1, 2] [(0 : ℚ), 1, 2] = 0 :=
  c4_self_distance_zero defaultDTWConfig (by norm_num [defaultDTWConfig])
    (by norm_num [defaultDTWConfig]) [(0 : ℚ), 1, 2] (by decide)

/-! ## Claim: LB_Keogh lower-bounds the exact distance (C1)

The claim fails on the code.  In the default configuration the exact
distance is derivative-DTW, computed on the first-difference signals and
normalised by `len(query) + len(template)` without a square root, while
`compute_lb_keogh` compares the *raw* signals against envelopes of the raw
template and returns a square root.  The two quantities are not on the same
scale: for the valid pair `q = [0,0,0]`, `t = [4,4,4]` (both of length 3,
well beyond the derivative-mode minimum), both derivatives are `[0, 0]`, so
the exact distance is 0, yet the query lies 4 below the template's lower
envelope everywhere, giving an LB_Keogh value of `√48 > 0`.  Such a query
can therefore be pruned ahead of an exact match, violating the spec's
contract that the value "must never exceed the true constrained DTW
distance". -/

/-- C1 failing input evaluated: the exact distance of `[0,0,0]` against
`[4,4,4]` under the default configuration is 0, while the LB_Keogh value
against the envelopes built with the same window is `√48 > 0`. -/
theorem c1_lb_keogh_violates_bound :
    compute_distance defaultDTWConfig [(0 : ℚ), 0, 0] [(4 : ℚ), 4, 4] = 0 ∧
    compute_lb_keogh_sq [(0 : ℚ), 0, 0]
      (compute_envelopes [(4 : ℚ), 4, 4]
        defaultDTWConfig.sakoe_chiba_window).1
      (compute_envelopes [(4 : ℚ), 4, 4]
        defaultDTWConfig.sakoe_chiba_window).2 = 48 ∧
    0 < Real.sqrt ((compute_lb_keogh_sq [(0 : ℚ), 0, 0]
      (compute_envelopes [(4 : ℚ), 4, 4]
        defaultDTWConfig.sakoe_chiba_window).1
      (compute_envelopes [(4 : ℚ), 4, 4]
        defaultDTWConfig.sakoe_chiba_window).2 : ℚ) : ℝ) := by
  have henv : compute_envelopes [(4 : ℚ), 4, 4]
      defaultDTWConfig.sakoe_chiba_window = ([4, 4, 4], [4, 4, 4]) := by
    norm_num [compute_envelopes, winSlice, listMax, listMin,
      List.range_succ, Int.floor_eq_iff, defaultDTWConfig]
  have hlb : compute_lb_keogh_sq [(0 : ℚ), 0, 0]
      (compute_envelopes [(4 : ℚ), 4, 4]
        defaultDTWConfig.sakoe_chiba_window).1
      (compute_envelopes [(4 : ℚ), 4, 4]
        defaultDTWConfig.sakoe_chiba_window).2 = 48 := by
    rw [henv]
    norm_num [compute_lb_keogh_sq, List.range_succ]
  have hdist : compute_distance defaultDTWConfig [(0 : ℚ), 0, 0]
      [(4 : ℚ), 4, 4] = 0 := by
    have hq : deriv [(0 : ℚ), 0, 0] = [0, 0] := by norm_num [deriv]
    have ht : deriv [(4 : ℚ), 4, 4] = [0, 0] := by norm_num [deriv]
    simp only [compute_distance, defaultDTWConfig]
    rw [if_neg (by decide), if_pos (by decide), hq, ht,
      dtwCostP_self 0 le_rfl [0, 0] (by decide) _
        (fun wf hwf => by cases hwf; norm_num),
      mapDiv_zero]
  refine ⟨hdist, hlb, ?_⟩
  rw [hlb]
  exact Real.sqrt_pos.mpr (by norm_num)

/-! ## Claim about the prune stage (C7) -/

/-- The LB_Keogh squared sum is non-negative (it is a sum of squares and
zeros), so sorting templates by the squared sum and by the square root the
source computes orders them identically (`sqrt_le_sqrt_iff_rat`). -/
theorem compute_lb_keogh_sq_nonneg (query upper lower : List ℚ) :
    0 ≤ compute_lb_keogh_sq query upper lower := by
  unfold compute_lb_keogh_sq
  apply List.sum_nonneg
  intro x hx
  rcases List.mem_map.mp hx with ⟨i, _, rfl⟩
  dsimp only
  split
  · exact sq_nonneg _
  · split
    · exact sq_nonneg _
    · exact le_rfl

/-- On non-negative rationals, comparing square roots is the same as
comparing the radicands: the prune stage's order on `Real.sqrt` values
coincides with the order on the squared sums used in the embedding. -/
theorem sqrt_le_sqrt_iff_rat (a b : ℚ) (hb : 0 ≤ b) :
    (Real.sqrt ((a : ℚ) : ℝ) ≤ Real.sqrt ((b : ℚ) : ℝ)) ↔
      ((a : ℚ) : ℝ) ≤ ((b : ℚ) : ℝ) :=
  Real.sqrt_le_sqrt_iff (by exact_mod_cast hb)

/-- C7: with pruning disabled or an empty store every template is a
candidate; a missing envelope yields bound 0; otherwise the prune stage
keeps exactly `max 1 ⌊N · percentile⌋` templates (the source's
`max(1, int(N * percentile))`), drawn from the store, and every kept
template has an LB_Keogh bound no larger than that of any dropped
template. -/
theorem c7_prune_stage (use_lb_keogh : Bool)
    (templates : List PatternTemplate) (query : List ℚ) (percentile : ℚ)
    (hp0 : 0 ≤ percentile) (hp1 : percentile ≤ 1) :
    ((use_lb_keogh = false ∨ templates = []) →
      filter_candidates_lb_keogh use_lb_keogh templates query percentile =
        templates) ∧
    (∀ t : PatternTemplate,
      (t.upper_envelope = none ∨ t.lower_envelope = none) →
      lbBoundKey query t = 0) ∧
    (use_lb_keogh = true → templates ≠ [] →
      (filter_candidates_lb_keogh use_lb_keogh templates query
          percentile).length =
        max 1 ((⌊(templates.length : ℚ) * percentile⌋).toNat) ∧
      (filter_candidates_lb_keogh use_lb_keogh templates query
          percentile).Subperm templates ∧
      (∀ t1 ∈ filter_candidates_lb_keogh use_lb_keogh templates query
          percentile,
       ∀ t2 ∈ templates,
        t2 ∉ filter_candidates_lb_keogh use_lb_keogh templates query
          percentile →
        lbBoundKey query t1 ≤ lbBoundKey query t2)) := by
  refine ⟨?_, ?_, ?_⟩
  · rintro (h | h)
    · simp [filter_candidates_lb_keogh, h]
    · simp [filter_candidates_lb_keogh, h]
  · intro t h
    cases hu : t.upper_envelope <;> cases hl : t.lower_envelope <;>
      simp_all [lbBoundKey]
  · intro hu hne
    have hcond : ¬((!use_lb_keogh || templates.isEmpty) = true) := by
      simp [hu, hne]
    set lbs := templates.map (fun t => (t, lbBoundKey query t)) with hlbs
    set sorted := lbs.mergeSort (fun a b => decide (a.2 ≤ b.2)) with hsorted
    set k := max 1 ((⌊(templates.length : ℚ) * percentile⌋).toNat) with hk
    have hdef : filter_candidates_lb_keogh use_lb_keogh templates query
        percentile = (sorted.take k).map (fun x => x.1) := by
      unfold filter_candidates_lb_keogh
      rw [if_neg hcond]
    have htrans : ∀ a b c : PatternTemplate × ℚ,
        decide (a.2 ≤ b.2) = true → decide (b.2 ≤ c.2) = true →
        decide (a.2 ≤ c.2) = true := by
      intro a b c hab hbc
      simp only [decide_eq_true_eq] at *
      exact le_trans hab hbc
    have htotal : ∀ a b : PatternTemplate × ℚ,
        (decide (a.2 ≤ b.2) || decide (b.2 ≤ a.2)) = true := by
      intro a b
      simp [le_total]
    have hpairw : List.Pairwise (fun a b : PatternTemplate × ℚ =>
        decide (a.2 ≤ b.2) = true) sorted :=
      List.sorted_mergeSort htrans htotal lbs
    have hperm : sorted.Perm lbs := List.mergeSort_perm lbs _
    have hlen_sorted : sorted.length = templates.length := by
      rw [hperm.length_eq, hlbs, List.length_map]
    have hN1 : 1 ≤ templates.length := List.length_pos.mpr hne
    have hkN : k ≤ templates.length := by
      have h1 : (⌊(templates.length : ℚ) * percentile⌋).toNat ≤
          templates.length := by
        rw [Int.toNat_le]
        calc ⌊(templates.length : ℚ) * percentile⌋
            ≤ ⌊((templates.length : ℕ) : ℚ)⌋ := Int.floor_le_floor
              (by nlinarith [Nat.cast_nonneg (α := ℚ) templates.length])
          _ = templates.length := Int.floor_natCast _
      rw [hk]
      omega
    refine ⟨?_, ?_, ?_⟩
    · rw [hdef, List.length_map, List.length_take, hlen_sorted]
      exact min_eq_left hkN
    · rw [hdef]
      have h1 : ((sorted.take k).map (fun x => x.1)).Sublist
          (sorted.map (fun x => x.1)) := (List.take_sublist k sorted).map _
      have h2 : (sorted.map (fun x => x.1)).Perm templates := by
        refine (hperm.map _).trans ?_
        rw [hlbs, List.map_map]
        have hcomp : ((fun x : PatternTemplate × ℚ => x.1) ∘
            (fun t => (t, lbBoundKey query t))) =
              fun t : PatternTemplate => t := rfl
        rw [hcomp, List.map_id']
      exact h1.subperm.trans h2.subperm
    · intro t1 h1 t2 h2 hn2
      rw [hdef] at h1 hn2
      have hsnd : ∀ p ∈ lbs, p.2 = lbBoundKey query p.1 := by
        intro p hp
        rw [hlbs] at hp
        rcases List.mem_map.mp hp with ⟨t, _, rfl⟩
        rfl
      rcases List.mem_map.mp h1 with ⟨p1, hp1take, rfl⟩
      have hp1sorted : p1 ∈ sorted := List.mem_of_mem_take hp1take
      have hp1snd : p1.2 = lbBoundKey query p1.1 :=
        hsnd p1 (hperm.mem_iff.mp hp1sorted)
      have hpair2mem : (t2, lbBoundKey query t2) ∈ sorted := by
        rw [hperm.mem_iff, hlbs]
        exact List.mem_map.mpr ⟨t2, h2, rfl⟩
      have hsplit : (t2, lbBoundKey query t2) ∈ sorted.take k ∨
          (t2, lbBoundKey query t2) ∈ sorted.drop k := by
        rw [← List.mem_append, List.take_append_drop]
        exact hpair2mem
      rcases hsplit with hin | hin
      · exact absurd (List.mem_map.mpr ⟨_, hin, rfl⟩) hn2
      · have hp := hpairw
        rw [← List.take_append_drop k sorted] at hp
        rcases List.pairwise_append.mp hp with ⟨-, -, hcross⟩
        have hle := hcross p1 hp1take _ hin
        simp only [decide_eq_true_eq] at hle
        rw [hp1snd] at hle
        exact hle

/-- Concrete template with envelopes, inside the prune window, for the
`c7_prune_stage` witness. -/
def tEnvA : PatternTemplate :=
  { id := 0, label := "A", raw_data := 0, normalized := [0, 0],
    symbol := "SYM", timeframe := "1h", start_time := 0, end_time := 1,
    bars_count := 2, is_augmented := false, augmentation_type := none,
    parent_id := none, quality_score := 1,
    upper_envelope := some [0, 0], lower_envelope := some [0, 0] }

/-- Concrete template with envelopes far from the query, for the
`c7_prune_stage` witness. -/
def tEnvB : PatternTemplate :=
  { id := 1, label := "B", raw_data := 1, normalized := [9, 9],
    symbol := "SYM", timeframe := "1h", start_time := 0, end_time := 1,
    bars_count := 2, is_augmented := false, augmentation_type := none,
    parent_id := none, quality_score := 1,
    upper_envelope := some [9, 9], lower_envelope := some [9, 9] }

/-- Witness for `c7_prune_stage`: a two-template store at the default
20% fraction keeps `max 1 ⌊2 · (1/5)⌋ = 1` candidate. -/
theorem c7_prune_stage_witness :
    (filter_candidates_lb_keogh true [tEnvA, tEnvB] [0, 0] (1 / 5)).length =
      max 1 ((⌊((([tEnvA, tEnvB] : List PatternTemplate).length : ℚ)) *
        (1 / 5)⌋).toNat) :=
  ((c7_prune_stage true [tEnvA, tEnvB] [0, 0] (1 / 5) (by norm_num)
    (by norm_num)).2.2 rfl (by decide)).1

/-! ## Claim: confidence lies in [0, 1] (C6) -/

theorem closenessScore_bounds (label : String)
    (kn : List (PatternTemplate × ℚ)) (hd : ∀ p ∈ kn, 0 ≤ p.2) :
    0 ≤ closenessScore label kn ∧ closenessScore label kn ≤ 1 := by
  unfold closenessScore
  refine ⟨?_, min_le_right _ _⟩
  cases hfind : nearestDistance label kn with
  | none => simp
  | some d =>
      rcases Option.map_eq_some'.mp hfind with ⟨p, hp, hpd⟩
      have hmem := List.mem_of_find?_eq_some hp
      have hd0 : 0 ≤ d := hpd ▸ hd p hmem
      have hpos : (0 : ℚ) < d + 1 / 1000000 := by linarith
      exact le_min (by positivity) zero_le_one

theorem consensusScore_bounds (label : String)
    (kn : List (PatternTemplate × ℚ)) :
    0 ≤ consensusScore label kn ∧ consensusScore label kn ≤ 1 := by
  unfold consensusScore
  split
  · exact ⟨le_rfl, zero_le_one⟩
  · rename_i hne
    have hlen : (0 : ℚ) < (kn.length : ℚ) := by
      have : kn ≠ [] := by simpa [List.isEmpty_iff] using hne
      have := List.length_pos.mpr this
      exact_mod_cast this
    constructor
    · positivity
    · rw [div_le_one hlen]
      exact_mod_cast List.length_filter_le _ kn

theorem labelWeight_nonneg (l : String) (kn : List (PatternTemplate × ℚ))
    (hd : ∀ p ∈ kn, 0 ≤ p.2) : 0 ≤ labelWeight l kn := by
  unfold labelWeight
  apply List.sum_nonneg
  intro x hx
  rcases List.mem_map.mp hx with ⟨p, hp, rfl⟩
  have hd0 : 0 ≤ p.2 := hd p (List.mem_filter.mp hp).1
  positivity

theorem labelWeight_pos (l : String) (kn : List (PatternTemplate × ℚ))
    (hd : ∀ p ∈ kn, 0 ≤ p.2) (hmem : l ∈ kn.map (fun p => p.1.label)) :
    0 < labelWeight l kn := by
  rcases List.mem_map.mp hmem with ⟨p, hp, rfl⟩
  have hpf : p ∈ kn.filter (fun q => decide (q.1.label = p.1.label)) :=
    List.mem_filter.mpr ⟨hp, by simp⟩
  have hterm : (1 / (p.2 + 1 / 1000000) : ℚ) ∈
      (kn.filter (fun q => decide (q.1.label = p.1.label))).map
        (fun q => 1 / (q.2 + 1 / 1000000)) :=
    List.mem_map.mpr ⟨p, hpf, rfl⟩
  have hall : ∀ x ∈ (kn.filter
      (fun q => decide (q.1.label = p.1.label))).map
        (fun q => 1 / (q.2 + 1 / 1000000)), (0 : ℚ) ≤ x := by
    intro x hx
    rcases List.mem_map.mp hx with ⟨q, hq, rfl⟩
    have : 0 ≤ q.2 := hd q (List.mem_filter.mp hq).1
    positivity
  have hpos : (0 : ℚ) < 1 / (p.2 + 1 / 1000000) := by
    have : 0 ≤ p.2 := hd p hp
    positivity
  exact lt_of_lt_of_le hpos (List.single_le_sum hall _ hterm)

/-- Bounds for the separation fraction over any weight-sorted distinct-label
list with at least two entries, each label occurring in the k-nearest
list. -/
theorem sep_frac_bounds (kn : List (PatternTemplate × ℚ))
    (hd : ∀ p ∈ kn, 0 ≤ p.2) (labels : List String)
    (hlab : ∀ l ∈ labels, l ∈ kn.map (fun p => p.1.label))
    (hlen : 2 ≤ labels.length)
    (hpair : List.Pairwise
      (fun a b => labelWeight b kn ≤ labelWeight a kn) labels) :
    0 ≤ (labelWeight (labels.getD 0 "") kn -
          labelWeight (labels.getD 1 "") kn) /
        (labelWeight (labels.getD 0 "") kn + 1 / 1000000) ∧
      (labelWeight (labels.getD 0 "") kn -
          labelWeight (labels.getD 1 "") kn) /
        (labelWeight (labels.getD 0 "") kn + 1 / 1000000) ≤ 1 := by
  match labels, hlen with
  | l1 :: l2 :: rest, _ =>
    have h12 : labelWeight l2 kn ≤ labelWeight l1 kn :=
      (List.pairwise_cons.mp hpair).1 l2 (List.mem_cons_self l2 rest)
    have hw1 : 0 < labelWeight l1 kn :=
      labelWeight_pos l1 kn hd (hlab l1 (List.mem_cons_self l1 (l2 :: rest)))
    have hw2 : 0 ≤ labelWeight l2 kn :=
      labelWeight_nonneg l2 kn hd
    have hden : (0 : ℚ) < labelWeight l1 kn + 1 / 1000000 := by linarith
    simp only [List.getD_cons_zero, List.getD_cons_succ]
    constructor
    · apply div_nonneg (by linarith) (le_of_lt hden)
    · rw [div_le_one hden]
      linarith

theorem separationScore_bounds (kn : List (PatternTemplate × ℚ))
    (hd : ∀ p ∈ kn, 0 ≤ p.2) :
    0 ≤ separationScore kn ∧ separationScore kn ≤ 1 := by
  unfold separationScore
  split
  · rename_i hmulti
    apply sep_frac_bounds kn hd
    · intro l hl
      have hperm := List.mergeSort_perm
        ((kn.map (fun p => p.1.label)).dedup)
        (fun a b => decide (labelWeight b kn ≤ labelWeight a kn))
      exact List.mem_dedup.mp (hperm.mem_iff.mp hl)
    · have hperm := List.mergeSort_perm
        ((kn.map (fun p => p.1.label)).dedup)
        (fun a b => decide (labelWeight b kn ≤ labelWeight a kn))
      rw [hperm.length_eq]
      omega
    · have hpairb := @List.sorted_mergeSort String
        (fun a b => decide (labelWeight b kn ≤ labelWeight a kn))
        (fun a b c hab hbc => by
          simp only [decide_eq_true_eq] at *
          exact le_trans hbc hab)
        (fun a b => by simp [le_total])
        ((kn.map (fun p => p.1.label)).dedup)
      exact hpairb.imp (fun h => by simpa using h)
  · exact ⟨zero_le_one, le_rfl⟩

theorem avgQualityScore_bounds (label : String)
    (kn : List (PatternTemplate × ℚ))
    (hq : ∀ p ∈ kn, 0 ≤ p.1.quality_score ∧ p.1.quality_score ≤ 1) :
    0 ≤ avgQualityScore label kn ∧ avgQualityScore label kn ≤ 1 := by
  unfold avgQualityScore
  split
  · exact ⟨le_rfl, zero_le_one⟩
  · rename_i hne
    have hne' : kn.filter (fun p => decide (p.1.label = label)) ≠ [] := by
      simpa [List.isEmpty_iff] using hne
    have hlen : (0 : ℚ) <
        ((kn.filter (fun p => decide (p.1.label = label))).length : ℚ) := by
      exact_mod_cast List.length_pos.mpr hne'
    constructor
    · apply div_nonneg _ (le_of_lt hlen)
      apply List.sum_nonneg
      intro x hx
      rcases List.mem_map.mp hx with ⟨p, hp, rfl⟩
      exact (hq p (List.mem_filter.mp hp).1).1
    · rw [div_le_one hlen]
      have hb : ((kn.filter (fun p => decide (p.1.label = label))).map
          (fun p => p.1.quality_score)).sum ≤
          ((kn.filter (fun p => decide (p.1.label = label))).map
            (fun p => p.1.quality_score)).length • (1 : ℚ) := by
        apply List.sum_le_card_nsmul
        intro x hx
        rcases List.mem_map.mp hx with ⟨p, hp, rfl⟩
        exact (hq p (List.mem_filter.mp hp).1).2
      rw [List.length_map] at hb
      simpa [nsmul_eq_mul] using hb

/-- C6: for the default weights 0.35/0.30/0.20/0.15, every label, every
non-empty k-nearest list with non-negative (finite, being rationals)
distances whose templates satisfy the data model's `quality_score ∈ [0,1]`
invariant, and every (ignored) vote weight and query, the confidence lies in
the closed interval [0, 1]. -/
theorem c6_confidence_bounds (label : String)
    (k_nearest : List (PatternTemplate × ℚ)) (vote_weight : ℚ)
    (query : List ℚ) (hne : k_nearest ≠ [])
    (hd : ∀ p ∈ k_nearest, 0 ≤ p.2)
    (hq : ∀ p ∈ k_nearest, 0 ≤ p.1.quality_score ∧ p.1.quality_score ≤ 1) :
    0 ≤ compute_confidence (7 / 20) (3 / 10) (1 / 5) (3 / 20) label
        k_nearest vote_weight query ∧
      compute_confidence (7 / 20) (3 / 10) (1 / 5) (3 / 20) label
        k_nearest vote_weight query ≤ 1 := by
  have h1 := closenessScore_bounds label k_nearest hd
  have h2 := consensusScore_bounds label k_nearest
  have h3 := separationScore_bounds k_nearest hd
  have h4 := avgQualityScore_bounds label k_nearest hq
  unfold compute_confidence
  constructor
  · have := h1.1; have := h2.1; have := h3.1; have := h4.1
    nlinarith [h1.1, h2.1, h3.1, h4.1]
  · nlinarith [h1.1, h1.2, h2.1, h2.2, h3.1, h3.2, h4.1, h4.2]

/-- Concrete same-label template for the `c6_confidence_bounds` witness. -/
def tConfA : PatternTemplate :=
  { id := 0, label := "A", raw_data := 0, normalized := [0, 1],
    symbol := "SYM", timeframe := "1h", start_time := 0, end_time := 1,
    bars_count := 2, is_augmented := false, augmentation_type := none,
    parent_id := none, quality_score := 1, upper_envelope := none,
    lower_envelope := none }

/-- Concrete other-label template for the `c6_confidence_bounds` witness. -/
def tConfB : PatternTemplate :=
  { id := 1, label := "B", raw_data := 1, normalized := [1, 0],
    symbol := "SYM", timeframe := "1h", start_time := 0, end_time := 1,
    bars_count := 2, is_augmented := false, augmentation_type := none,
    parent_id := none, quality_score := 1 / 2, upper_envelope := none,
    lower_envelope := none }

/-- Witness for `c6_confidence_bounds` on a concrete two-neighbour list with
two distinct labels. -/
theorem c6_confidence_bounds_witness :
    0 ≤ compute_confidence (7 / 20) (3 / 10) (1 / 5) (3 / 20) "A"
        [(tConfA, 0), (tConfB, 1)] 1 [0, 1] ∧
      compute_confidence (7 / 20) (3 / 10) (1 / 5) (3 / 20) "A"
        [(tConfA, 0), (tConfB, 1)] 1 [0, 1] ≤ 1 :=
  c6_confidence_bounds "A" [(tConfA, 0), (tConfB, 1)] 1 [0, 1]
    (by decide)
    (by
      intro p hp
      rcases List.mem_cons.mp hp with rfl | hp2
      · norm_num
      · rcases List.mem_cons.mp hp2 with rfl | hp3
        · norm_num
        · exact absurd hp3 (List.not_mem_nil _))
    (by
      intro p hp
      rcases List.mem_cons.mp hp with rfl | hp2
      · norm_num [tConfA]
      · rcases List.mem_cons.mp hp2 with rfl | hp3
        · norm_num [tConfB]
        · exact absurd hp3 (List.not_mem_nil _))

end ChartPattern
